import Mathlib

/-!
Verification development for the tarc-portal IoT telemetry platform.

The development has two parts.

Part 1 embeds the TypeScript frontend code that is present in the
repository: the mock historical-data generator (`generateHistoricalData`
and the `switch` on `timeRange` from `src/unnamed/part_001`), the
`SensorReading` / `Device` / `HistoricalReading` data shapes, the
device-page display convention (`value > 0 ? value : "—"`), and the
dashboard's client-side average fallback (`src/unnamed/part_000`,
`src/web/app/page.tsx`).  JavaScript numbers are modelled as rationals;
`Math.random()` is modelled as an ambient stream `rand : Nat → ℚ` of
values in `[0, 1)` (one index per call, five calls per generated
element), and `Math.sin` / `Math.cos` as ambient functions bounded by 1
in absolute value.  `Math.floor` is `Rat.floor`.  Locale string
formatting of timestamps is abstracted away: the embedding keeps the
raw epoch-milliseconds value that the source formats.

Part 2 models the ingestion/deduplication/aggregation core.  That core
(the FastAPI backend, `api/` in the repository layout) is not among the
available sources, so it is modelled from the specification: the
Deduplicator's `admit`, the append-only Event Store, the Device State
Aggregator's `on_event` / `snapshot` / `liveness_check`, and the
Analysis Dispatcher's classification strategy.  The specification
requires admission to be linearizable (an atomic insert-if-absent), so a
concurrent batch of deliveries is modelled as an arbitrary sequential
order of atomic `admit` steps; quantifying over all orders quantifies
over all interleavings.
-/

namespace TarcPortal

/-! ## Part 1: frontend embedding (from the sources) -/

/-- `SensorReading` from `src/unnamed/part_001` lines 1-9: all seven
fields are plain (non-optional) numbers; there is no way to mark a
field as absent. -/
structure SensorReading where
  fluxo : ℚ
  pulso : ℚ
  sensor : ℚ
  t : ℚ
  h : ℚ
  g : ℚ
  solo : ℚ

/-- `Device` from `src/unnamed/part_001` lines 11-18.  Note that
`status` is a stored string field of the transported record, and
`lastReading` is a total `SensorReading`. -/
structure Device where
  id : String
  name : String
  status : String
  location : String
  lastUpdate : String
  lastReading : SensorReading

/-- One element of the list produced by `generateHistoricalData`
(`src/unnamed/part_001` lines 161-169).  Every field is a plain number;
the record has no representation for an absent field.  The `timestamp`
is kept as the raw epoch-milliseconds value that the source formats
into a locale string.  (The `HistoricalReading` interface in
`src/web/src/lib/api.ts` lines 24-33 additionally declares a `sensor`
field, which the generator never emits; none of the properties below
concern it.) -/
structure HistoricalReading where
  timestamp : Int
  t : ℚ
  h : ℚ
  g : ℚ
  fluxo : ℚ
  pulso : ℚ
  solo : ℚ

/-- The `switch (timeRange)` of `generateHistoricalData`
(`src/unnamed/part_001` lines 121-141): `dataPoints` and
`intervalMinutes` start at `(24, 60)` and the four recognized cases
overwrite them; any other string keeps the defaults (the `switch` has
no `default` arm and no error path). -/
def rangeParams (timeRange : String) : Nat × Nat :=
  if timeRange = "1h" then (12, 5)
  else if timeRange = "24h" then (24, 60)
  else if timeRange = "7d" then (28, 360)
  else if timeRange = "30d" then (30, 1440)
  else (24, 60)

/-- `generateHistoricalData` from `src/unnamed/part_001` lines 119-171.
The function consults no event store at all: every field of every
element is synthesized from `Math.random()` and sine/cosine waves, and
`solo` is the constant `0.0`.  `rand k` is the value of the `k`-th call
of `Math.random()` (five calls per element, in source order
t, h, g, fluxo, pulso); `jsSin`/`jsCos` stand for `Math.sin`/`Math.cos`. -/
def generateHistoricalData (timeRange : String) (now : Int)
    (rand : Nat → ℚ) (jsSin jsCos : ℚ → ℚ) : List HistoricalReading :=
  let p := rangeParams timeRange
  let dataPoints := p.1
  let intervalMinutes := p.2
  (List.range dataPoints).map (fun i =>
    { timestamp := now - ((dataPoints - i - 1) * intervalMinutes * 60000 : Nat)
      t := 20 + rand (5 * i) * 10 + jsSin ((i : ℚ) / 3) * 3
      h := 50 + rand (5 * i + 1) * 20 + jsCos ((i : ℚ) / 4) * 10
      g := 100 + rand (5 * i + 2) * 200 + jsSin ((i : ℚ) / 2) * 50
      fluxo := 30 + rand (5 * i + 3) * 40 + jsCos ((i : ℚ) / 3) * 15
      pulso := (Rat.floor (150 + rand (5 * i + 4) * 300 + jsSin ((i : ℚ) / 2) * 100) : ℚ)
      solo := 0 })

/-- The display convention used throughout the presentation layer
(`DevicePage.tsx` lines 363-392, `device-table` cells): a numeric field
is rendered as its value exactly when it is `> 0`, and as the dash "—"
(modelled as `none`) otherwise.  Zero and "no data" are therefore
indistinguishable downstream. -/
def displayValue (v : ℚ) : Option ℚ :=
  if v > 0 then some v else none

/-- Arithmetic mean of a list of rationals, `0` for the empty list
(the comparison point for the dashboard's fallback computation). -/
def arithMean (xs : List ℚ) : ℚ :=
  if xs = [] then 0 else xs.sum / (xs.length : ℚ)

/-- The dashboard's client-side fallback for the mean temperature
(`src/unnamed/part_000` lines 84-93, identical in
`src/web/app/page.tsx` lines 80-89): `stats?.avgTemperature ?? (...)`.
When the `/stats` aggregate is absent (`none`), devices are filtered to
those with `lastReading.t > 0`, and the mean is their sum divided by
their count, `0` when no device qualifies. -/
def avgTemperature (devices : List Device) (statsAvg : Option ℚ) : ℚ :=
  match statsAvg with
  | some v => v
  | none =>
      let devicesWithTemp := devices.filter (fun d => decide (d.lastReading.t > 0))
      if 0 < devicesWithTemp.length then
        (devicesWithTemp.foldl (fun acc d => acc + d.lastReading.t) 0) /
          (devicesWithTemp.length : ℚ)
      else 0

/-- The dashboard's client-side fallback for the mean humidity
(`src/unnamed/part_000` lines 86 and 94-99), same shape as
`avgTemperature` with `lastReading.h`. -/
def avgHumidity (devices : List Device) (statsAvg : Option ℚ) : ℚ :=
  match statsAvg with
  | some v => v
  | none =>
      let devicesWithHumidity := devices.filter (fun d => decide (d.lastReading.h > 0))
      if 0 < devicesWithHumidity.length then
        (devicesWithHumidity.foldl (fun acc d => acc + d.lastReading.h) 0) /
          (devicesWithHumidity.length : ℚ)
      else 0

/-! ## Part 2: the ingestion/deduplication/aggregation core, modelled
from the specification (the backend implementing it is not among the
available sources). -/

namespace Core

/-- Modelled from the spec: the closed set of event kinds of a
canonical `TelemetryEvent` (§3: uplink | join | ack | log |
sensor_reading). -/
inductive EventKind where
  | uplink
  | join
  | ack
  | log
  | sensor_reading
deriving DecidableEq

/-- Modelled from the spec: a dedup key is either the stable identifier
supplied by the source (e.g. a LoRaWAN `deduplication_id`) or, when the
source supplies none, a synthetic key derived from
`(device_id, event_kind, occurred_at, field-value fingerprint)` (§4.1). -/
inductive Key where
  | source : String → Key
  | synthetic : String → EventKind → Int → List (String × ℚ) → Key
deriving DecidableEq

/-- Modelled from the spec: an incoming candidate event as delivered by
a webhook or device push; `dedup_key` is `none` when the source supplies
no deduplication identifier (§3, §4.1). -/
structure Candidate where
  device_id : String
  occurred_at : Int
  event_kind : EventKind
  fields : List (String × ℚ)
  dedup_key : Option String
  raw_payload : String
deriving DecidableEq

/-- Modelled from the spec: a canonical `TelemetryEvent` as stored in
the Event Store (§3): immutable once appended, carrying the resolved
dedup key and the ingest timestamp `received_at`. -/
structure TelemetryEvent where
  device_id : String
  occurred_at : Int
  received_at : Int
  event_kind : EventKind
  dedup_key : Key
  fields : List (String × ℚ)
  raw_payload : String
deriving DecidableEq

/-- Modelled from the spec: the key under which a candidate is
deduplicated — the supplied key when present, otherwise the synthetic
key derived from `(device_id, event_kind, occurred_at, fields)` (§4.1).
Because the synthetic key embeds the exact `occurred_at`, two candidates
with the same synthetic key are zero seconds apart, inside any tolerance
window. -/
def canonKey (c : Candidate) : Key :=
  match c.dedup_key with
  | some s => Key.source s
  | none => Key.synthetic c.device_id c.event_kind c.occurred_at c.fields

/-- Modelled from the spec: the Deduplicator's existence check against
the Event Store's dedup index (§4.2). -/
def knownKey (store : List TelemetryEvent) (k : Key) : Bool :=
  store.any (fun e => e.dedup_key == k)

/-- Modelled from the spec: per-device derived state (§3 `DeviceState`).
`last_reading` maps a field name to its most recent known value (`none`
when the field was never reported); there is no stored online/offline
flag — liveness is derived at read time. -/
structure DeviceState where
  device_id : String
  last_seen_at : Int
  last_reading : String → Option ℚ
  event_count_by_kind : EventKind → Nat

/-- Modelled from the spec: the Device State Aggregator's `on_event`
(§4.3): `last_seen_at := max(current, event.occurred_at)`, fields
present in the event overwrite `last_reading` entries while absent
fields leave the prior value untouched, and the per-kind counter is
incremented. -/
def on_event (st : DeviceState) (e : TelemetryEvent) : DeviceState :=
  { device_id := st.device_id
    last_seen_at := max st.last_seen_at e.occurred_at
    last_reading := fun n =>
      match e.fields.lookup n with
      | some v => some v
      | none => st.last_reading n
    event_count_by_kind := fun k =>
      if k = e.event_kind then st.event_count_by_kind k + 1
      else st.event_count_by_kind k }

/-- Modelled from the spec: the `DeviceState` created by the first
accepted event of a device (§3: `DeviceState` is derived state, created
on ingest). -/
def initState (e : TelemetryEvent) : DeviceState :=
  { device_id := e.device_id
    last_seen_at := e.occurred_at
    last_reading := fun n => e.fields.lookup n
    event_count_by_kind := fun k => if k = e.event_kind then 1 else 0 }

/-- Modelled from the spec: the result of `admit` (§4.1):
`Accepted(TelemetryEvent)` or `Duplicate(existing key)`. -/
inductive AdmitResult where
  | accepted : TelemetryEvent → AdmitResult
  | duplicate : Key → AdmitResult

/-- Whether an `AdmitResult` is an acceptance. -/
def isAccepted : AdmitResult → Bool
  | AdmitResult.accepted _ => true
  | AdmitResult.duplicate _ => false

/-- Whether an `AdmitResult` is a duplicate report. -/
def isDuplicate : AdmitResult → Bool
  | AdmitResult.accepted _ => false
  | AdmitResult.duplicate _ => true

/-- Modelled from the spec: the shared state of the core — the
append-only Event Store and the per-device derived states (§2). -/
structure System where
  store : List TelemetryEvent
  devices : String → Option DeviceState

/-- The initial system: empty store, no device states. -/
def emptySystem : System :=
  { store := [], devices := fun _ => none }

/-- Modelled from the spec: the canonical event built by the winning
admission path (§4.1, §4.2): the candidate's data plus the resolved
dedup key and the ingest timestamp. -/
def canonize (c : Candidate) (now : Int) : TelemetryEvent :=
  { device_id := c.device_id
    occurred_at := c.occurred_at
    received_at := now
    event_kind := c.event_kind
    dedup_key := canonKey c
    fields := c.fields
    raw_payload := c.raw_payload }

/-- Modelled from the spec: the Deduplicator's
`admit(candidate) -> Accepted | Duplicate` (§4.1), atomic per §5: if the
candidate's dedup key is already known the call returns `Duplicate` with
no side effect at all; otherwise the canonical event is appended to the
Event Store and the device's state is updated synchronously via
`on_event`. -/
def admitEvent (sys : System) (c : Candidate) (now : Int) : AdmitResult × System :=
  let k := canonKey c
  if knownKey sys.store k then
    (AdmitResult.duplicate k, sys)
  else
    let ev := canonize c now
    (AdmitResult.accepted ev,
      { store := sys.store ++ [ev]
        devices := fun d =>
          if d = ev.device_id then
            match sys.devices ev.device_id with
            | some st => some (on_event st ev)
            | none => some (initState ev)
          else sys.devices d })

/-- The number of events in a store that carry a given dedup key. -/
def keyCount (store : List TelemetryEvent) (k : Key) : Nat :=
  (store.filter (fun e => decide (e.dedup_key = k))).length

/-- A sequence of atomic admissions.  Per §5 each `admit` is
linearizable, so an arbitrary interleaving of N concurrent deliveries is
exactly an arbitrary order in which the N atomic steps take effect;
quantifying over the order of `cs` quantifies over all interleavings. -/
def admitSeq : System → List Candidate → Int → List AdmitResult × System
  | sys, [], _ => ([], sys)
  | sys, c :: rest, now =>
      ((admitEvent sys c now).1 :: (admitSeq (admitEvent sys c now).2 rest now).1,
        (admitSeq (admitEvent sys c now).2 rest now).2)

/-- The states of the core reachable from the empty system by atomic
admissions. -/
inductive Reachable : System → Prop where
  | empty : Reachable emptySystem
  | step (c : Candidate) (now : Int) {s : System} :
      Reachable s → Reachable (admitEvent s c now).2

/-- Modelled from the spec: derived liveness status (§3, §4.3). -/
inductive Status where
  | online
  | offline
deriving DecidableEq

/-- Modelled from the spec: `online` iff `now - last_seen_at <=
threshold`, a pure function of exactly these three values (§4.3). -/
def liveness_check (now threshold last_seen : Int) : Status :=
  if now - last_seen ≤ threshold then Status.online else Status.offline

/-- Modelled from the spec: `snapshot(device_id)` (§4.3) — the stored
derived state paired with the liveness status computed at read time
(the status is not a stored field of `DeviceState`). -/
def snapshot (sys : System) (id : String) (now threshold : Int) :
    Option (DeviceState × Status) :=
  (sys.devices id).map (fun st => (st, liveness_check now threshold st.last_seen_at))

/-- Modelled from the spec: the analysis-kind-specific minimum sample
count for classification (§4.5; the spec fixes no number, only that
clustering requires more points than classification). -/
def minSamplesClassification : Nat := 10

/-- Modelled from the spec: the result envelope of the classification
strategy (§4.4 result shapes and the field names displayed by
`MLAnalysisPage.tsx` lines 307-376: `class_thresholds.baixo/alto`,
`class_distribution`, `total_classified`). -/
structure ClassificationResult where
  threshold_baixo : ℚ
  threshold_alto : ℚ
  count_baixo : Nat
  count_normal : Nat
  count_alto : Nat
  total_classified : Nat

/-- Modelled from the spec: the classification strategy (§4.5):
quantile-based low/high thresholds (the 33rd and 66th percentile order
statistics of the series), three classes `baixo` (value below the low
threshold), `normal` (between the thresholds inclusive) and `alto`
(above the high threshold), per-class counts, and the overall count
classified.  Returns `none` (`NotEnoughData`) below the minimum sample
count. -/
def classifySeries (series : List ℚ) : Option ClassificationResult :=
  if series.length < minSamplesClassification then none
  else
    let sorted := List.insertionSort (· ≤ ·) series
    let n := series.length
    let baixo := sorted.getD (n * 33 / 100) 0
    let alto := sorted.getD (n * 66 / 100) 0
    some { threshold_baixo := baixo
           threshold_alto := alto
           count_baixo := series.countP (fun v => decide (v < baixo))
           count_normal := series.countP (fun v => decide (baixo ≤ v ∧ v ≤ alto))
           count_alto := series.countP (fun v => decide (alto < v))
           total_classified := n }

end Core

/-! ## Concrete instances used by witnesses and counterexamples -/

/-- The ambient `Math.random()` stream of an execution in which every
call returns `0` (a value every call may produce). -/
def zeroStream : Nat → ℚ := fun _ => 0

/-- A concrete instantiation of an ambient real-valued function,
constantly `0` (within the bound `|·| ≤ 1` assumed of `Math.sin` /
`Math.cos`; it agrees with `Math.sin` at argument `0`). -/
def zeroFun : ℚ → ℚ := fun _ => 0

/-- The 24-hour history produced under the `zeroStream`/`zeroFun`
instantiation of the ambient randomness and trigonometric streams. -/
def wHistory : List HistoricalReading :=
  generateHistoricalData "24h" 0 zeroStream zeroFun zeroFun

/-- A frontend device record with the given last temperature and
humidity readings (all other fields blank). -/
def mkDevice (t h : ℚ) : Device :=
  { id := "", name := "", status := "online", location := "", lastUpdate := ""
    lastReading := { fluxo := 0, pulso := 0, sensor := 0, t := t, h := h, g := 0, solo := 0 } }

namespace Core

/-- A concrete uplink candidate for device `D1` carrying the
network-server deduplication id `"abc"`. -/
def cand1 : Candidate :=
  { device_id := "D1", occurred_at := 0, event_kind := EventKind.uplink
    fields := [], dedup_key := some "abc", raw_payload := "" }

/-- A second delivery of the same logical transmission as `cand1`
(same deduplication id, later gateway timestamp). -/
def cand2 : Candidate :=
  { device_id := "D1", occurred_at := 10, event_kind := EventKind.uplink
    fields := [], dedup_key := some "abc", raw_payload := "" }

/-- A third delivery of the same logical transmission as `cand1`. -/
def cand3 : Candidate :=
  { device_id := "D1", occurred_at := 20, event_kind := EventKind.uplink
    fields := [], dedup_key := some "abc", raw_payload := "" }

/-- The system after admitting `cand1` into the empty system. -/
def wSys : System := (admitEvent emptySystem cand1 0).2

/-- A concrete canonical event for device `D1` with the given source
timestamp. -/
def mkEv (t : Int) : TelemetryEvent :=
  { device_id := "D1", occurred_at := t, received_at := t
    event_kind := EventKind.uplink, dedup_key := Key.source (toString t)
    fields := [], raw_payload := "" }

/-- A concrete derived device state: `D1` last seen at time `40`. -/
def wState : DeviceState :=
  { device_id := "D1", last_seen_at := 40
    last_reading := fun _ => none, event_count_by_kind := fun _ => 0 }

/-- A concrete system holding only the state `wState` for `D1`. -/
def wSys6 : System :=
  { store := [], devices := fun d => if d = "D1" then some wState else none }

/-- A concrete twelve-sample series (meets the classification minimum). -/
def wSeries : List ℚ := [1, 2, 3, 4, 5, 6, 7, 8, 9, 10, 11, 12]

/-- The classification result of `wSeries`: thresholds are the 3rd and
7th order statistics (`4` and `8`), classes count 3/5/4 of the twelve
samples. -/
def wResult : ClassificationResult :=
  { threshold_baixo := 4, threshold_alto := 8
    count_baixo := 3, count_normal := 5, count_alto := 4
    total_classified := 12 }

end Core

/-! ## Theorems: presentation-layer history generator (C4, C5, C7, C8) -/

/-- The generator always returns exactly `dataPoints` elements, where
`dataPoints` is the first component of the `switch` mapping. -/
theorem generateHistoricalData_length (tr : String) (now : Int)
    (rand : Nat → ℚ) (jsSin jsCos : ℚ → ℚ) :
    (generateHistoricalData tr now rand jsSin jsCos).length = (rangeParams tr).1 := by
  simp [generateHistoricalData]

/-- C7 (amended): `generateHistoricalData` maps the four recognized
time ranges to fixed (point count, bucket minutes) pairs — 1h ↦ (12, 5),
24h ↦ (24, 60), 7d ↦ (28, 360), 30d ↦ (30, 1440), with strictly finer
buckets for shorter windows — but it does not accept *exactly* this
closed enumeration: any other string silently falls back to the 24h
defaults `(24, 60)`.  The number of buckets returned equals the mapped
point count, is at most 30, and is independent of any stored events
(the generator consults no store at all). -/
theorem time_range_mapping_and_bound :
    rangeParams "1h" = (12, 5) ∧ rangeParams "24h" = (24, 60) ∧
    rangeParams "7d" = (28, 360) ∧ rangeParams "30d" = (30, 1440) ∧
    (rangeParams "1h").2 < (rangeParams "24h").2 ∧
    (rangeParams "24h").2 < (rangeParams "7d").2 ∧
    (rangeParams "7d").2 < (rangeParams "30d").2 ∧
    (∀ tr : String, (rangeParams tr).1 ≤ 30) ∧
    (∀ (tr : String) (now : Int) (rand : Nat → ℚ) (jsSin jsCos : ℚ → ℚ),
      (generateHistoricalData tr now rand jsSin jsCos).length = (rangeParams tr).1) := by
  refine ⟨by decide, by decide, by decide, by decide, by decide, by decide, by decide, ?_, ?_⟩
  · intro tr
    unfold rangeParams
    split_ifs <;> norm_num
  · intro tr now rand jsSin jsCos
    exact generateHistoricalData_length tr now rand jsSin jsCos

/-- C7 (counterexample): the value `"90d"`, outside the recognized
enumeration `1h/24h/7d/30d`, is not rejected: the `switch` keeps the
initial defaults and the generator happily returns 24 buckets — so
`history` does not accept *exactly* the closed enumeration. -/
theorem time_range_fallback_cex :
    rangeParams "90d" = (24, 60) ∧
    (generateHistoricalData "90d" 0 zeroStream zeroFun zeroFun).length = 24 := by
  constructor
  · decide
  · rw [generateHistoricalData_length]
    decide

/-- C8 (amended): a `time_range` value outside the recognized
enumeration is *not* rejected with `InvalidTimeRange`: the `switch` in
`generateHistoricalData` has no default arm and no error path, so any
unrecognized value silently falls back to the 24-hour parameters and
data is returned (24 buckets of 60 minutes). -/
theorem unrecognized_time_range_defaults (tr : String) (now : Int)
    (rand : Nat → ℚ) (jsSin jsCos : ℚ → ℚ)
    (h1 : tr ≠ "1h") (h2 : tr ≠ "24h") (h3 : tr ≠ "7d") (h4 : tr ≠ "30d") :
    rangeParams tr = (24, 60) ∧
    (generateHistoricalData tr now rand jsSin jsCos).length = 24 := by
  have hp : rangeParams tr = (24, 60) := by
    unfold rangeParams
    rw [if_neg h1, if_neg h2, if_neg h3, if_neg h4]
  exact ⟨hp, by rw [generateHistoricalData_length, hp]⟩

/-- C8 (witness): the unrecognized value `"banana"` is accepted and
yields the default 24 buckets. -/
theorem unrecognized_time_range_defaults_witness :
    rangeParams "banana" = (24, 60) ∧
    (generateHistoricalData "banana" 0 zeroStream zeroFun zeroFun).length = 24 :=
  unrecognized_time_range_defaults "banana" 0 zeroStream zeroFun zeroFun
    (by decide) (by decide) (by decide) (by decide)

/-- C8 (counterexample): a request with the unrecognized time range
`"invalid"` is not rejected before touching any store — the generator
returns a full, non-empty 24-bucket response for it. -/
theorem invalid_time_range_not_rejected_cex :
    (generateHistoricalData "invalid" 0 zeroStream zeroFun zeroFun).length = 24 ∧
    generateHistoricalData "invalid" 0 zeroStream zeroFun zeroFun ≠ [] := by
  have hl : (generateHistoricalData "invalid" 0 zeroStream zeroFun zeroFun).length = 24 := by
    rw [generateHistoricalData_length]
    decide
  refine ⟨hl, ?_⟩
  intro hnil
  rw [hnil] at hl
  simp at hl

/-- C4 (amended): the historical-readings representation has no absent
marker at all — every field of every bucket is a plain number.  A field
for which no underlying data exists is reported with the numeric value
`0` (the `solo` field is the constant `0.0` in every bucket of every
range, for every execution), and the presentation layer then renders
any value `≤ 0` as the dash "—"; zero and no-data are conflated rather
than distinguished end-to-end. -/
theorem history_zero_sentinel_conflates_absent (tr : String) (now : Int)
    (rand : Nat → ℚ) (jsSin jsCos : ℚ → ℚ) :
    (generateHistoricalData tr now rand jsSin jsCos).all
      (fun b => decide (b.solo = 0 ∧ displayValue b.solo = none)) = true := by
  rw [List.all_eq_true]
  intro b hb
  simp only [generateHistoricalData, List.mem_map, List.mem_range] at hb
  obtain ⟨i, _, rfl⟩ := hb
  simp [displayValue]

/-- C4 (counterexample): in the execution where every `Math.random()`
call returns `0` (and the ambient trig streams are the constants they
take at index 0), the first bucket of the 24-hour history — a bucket
with no underlying events whatsoever, since the generator consults no
store — reports the `solo` field as the present numeric value `0`, not
as absent: the claim that such a field is never reported as present
with value 0 is false. -/
theorem history_absent_field_reported_zero_cex :
    wHistory.head?.map (fun b => b.solo) = some 0 := by
  simp [wHistory, generateHistoricalData, rangeParams, List.range_succ_eq_map]

/-- C5 (counterexample): the round trip fails.  In the execution where
every `Math.random()` call returns `0` (with the ambient trig streams
at the constants they take at index 0), the history for any window
containing an ingested `{t: 24.5, h: 62.3}` reading reports `g = 100`
in every bucket — the gas field is present and positive everywhere, so
no bucket reports the non-ingested fields as absent — and the first
bucket's temperature is `20`, not the ingested `24.5`.  The generator
takes no input from ingestion at all. -/
theorem roundtrip_history_independent_cex :
    wHistory.all (fun b => decide (b.g = 100)) = true ∧
    wHistory.head?.map (fun b => b.t) = some 20 := by
  constructor
  · rw [List.all_eq_true]
    intro b hb
    simp only [wHistory, generateHistoricalData, rangeParams, List.mem_map,
      List.mem_range] at hb
    obtain ⟨i, _, rfl⟩ := hb
    simp [zeroStream, zeroFun]
  · simp [wHistory, generateHistoricalData, rangeParams, List.range_succ_eq_map,
      zeroStream, zeroFun]

/-- C5 (amended): ingesting a reading has no effect on `history` — the
generator synthesizes every bucket from ambient randomness and consults
no store.  For every execution consistent with JavaScript semantics
(`Math.random() ≥ 0`, `|Math.sin| ≤ 1`, `|Math.cos| ≤ 1`), every bucket
of every window reports `g ≥ 50` and `fluxo ≥ 15`: both fields are
always present and positive, so no bucket ever reports the
non-ingested fields g and fluxo as absent, and the round-trip property
fails under every possible execution. -/
theorem history_fields_always_present_positive (tr : String) (now : Int)
    (rand : Nat → ℚ) (jsSin jsCos : ℚ → ℚ)
    (hr : ∀ n, 0 ≤ rand n)
    (hs : ∀ x, -1 ≤ jsSin x) (hc : ∀ x, -1 ≤ jsCos x) :
    (generateHistoricalData tr now rand jsSin jsCos).all
      (fun b => decide (50 ≤ b.g ∧ 15 ≤ b.fluxo)) = true := by
  rw [List.all_eq_true]
  intro b hb
  simp only [generateHistoricalData, List.mem_map, List.mem_range] at hb
  obtain ⟨i, _, rfl⟩ := hb
  rw [decide_eq_true_eq]
  constructor
  · have h1 : (0 : ℚ) ≤ rand (5 * i + 2) * 200 :=
      mul_nonneg (hr (5 * i + 2)) (by norm_num)
    have h2 : (-1 : ℚ) * 50 ≤ jsSin ((i : ℚ) / 2) * 50 :=
      mul_le_mul_of_nonneg_right (hs ((i : ℚ) / 2)) (by norm_num)
    simp only
    linarith
  · have h1 : (0 : ℚ) ≤ rand (5 * i + 3) * 40 :=
      mul_nonneg (hr (5 * i + 3)) (by norm_num)
    have h2 : (-1 : ℚ) * 15 ≤ jsCos ((i : ℚ) / 3) * 15 :=
      mul_le_mul_of_nonneg_right (hc ((i : ℚ) / 3)) (by norm_num)
    simp only
    linarith

/-- C5 (witness): the amended theorem applied to the concrete zero
execution of the 24-hour window. -/
theorem history_fields_always_present_positive_witness :
    wHistory.all (fun b => decide (50 ≤ b.g ∧ 15 ≤ b.fluxo)) = true :=
  history_fields_always_present_positive "24h" 0 zeroStream zeroFun zeroFun
    (fun n => by norm_num [zeroStream]) (fun x => by norm_num [zeroFun])
    (fun x => by norm_num [zeroFun])

/-! ## Theorems: dashboard client-side fallback (C10) -/

/-- The source's `reduce((acc, d) => acc + d.lastReading.t, 0)` is the
sum of the mapped values. -/
theorem foldl_add_map {α : Type} (f : α → ℚ) :
    ∀ (l : List α) (init : ℚ),
      l.foldl (fun acc d => acc + f d) init = init + (l.map f).sum := by
  intro l
  induction l with
  | nil => intro init; simp
  | cons a t ih =>
      intro init
      simp only [List.foldl_cons, List.map_cons, List.sum_cons, ih]
      ring

/-- C10: when the `/stats` response omits the aggregate (`none`), the
dashboard fallback computes `avgTemperature` (resp. `avgHumidity`) as
the arithmetic mean of `lastReading.t` (resp. `.h`) over exactly the
devices whose value is strictly positive, and `0` when none qualifies;
a supplied aggregate (even `0`) is used as-is; and a device whose value
is `≤ 0` (a true zero or negative reading) is excluded — it does not
change the computed average. -/
theorem dashboard_fallback_average (devices : List Device) :
    avgTemperature devices none
      = arithMean ((devices.filter (fun d => decide (d.lastReading.t > 0))).map
          (fun d => d.lastReading.t)) ∧
    avgHumidity devices none
      = arithMean ((devices.filter (fun d => decide (d.lastReading.h > 0))).map
          (fun d => d.lastReading.h)) ∧
    (∀ v : ℚ, avgTemperature devices (some v) = v) ∧
    (∀ d : Device, d.lastReading.t ≤ 0 →
      avgTemperature (d :: devices) none = avgTemperature devices none) ∧
    (∀ d : Device, d.lastReading.h ≤ 0 →
      avgHumidity (d :: devices) none = avgHumidity devices none) := by
  refine ⟨?_, ?_, fun v => rfl, ?_, ?_⟩
  · by_cases hT : devices.filter (fun d => decide (d.lastReading.t > 0)) = []
    · simp [avgTemperature, arithMean, hT]
    · have hlen : 0 < (devices.filter (fun d => decide (d.lastReading.t > 0))).length :=
        List.length_pos.mpr hT
      have hmap : (devices.filter (fun d => decide (d.lastReading.t > 0))).map
          (fun d => d.lastReading.t) ≠ [] := by
        simp [List.map_eq_nil_iff, hT]
      simp only [avgTemperature, arithMean, if_pos hlen, if_neg hmap,
        foldl_add_map, List.length_map, zero_add]
  · by_cases hH : devices.filter (fun d => decide (d.lastReading.h > 0)) = []
    · simp [avgHumidity, arithMean, hH]
    · have hlen : 0 < (devices.filter (fun d => decide (d.lastReading.h > 0))).length :=
        List.length_pos.mpr hH
      have hmap : (devices.filter (fun d => decide (d.lastReading.h > 0))).map
          (fun d => d.lastReading.h) ≠ [] := by
        simp [List.map_eq_nil_iff, hH]
      simp only [avgHumidity, arithMean, if_pos hlen, if_neg hmap,
        foldl_add_map, List.length_map, zero_add]
  · intro d hd
    have hcond : (decide (d.lastReading.t > 0)) = false := by
      simp [not_lt.mpr hd]
    simp only [avgTemperature, List.filter_cons, hcond]
    rfl
  · intro d hd
    have hcond : (decide (d.lastReading.h > 0)) = false := by
      simp [not_lt.mpr hd]
    simp only [avgHumidity, List.filter_cons, hcond]
    rfl

/-- C10 (witness): a device reporting a true-zero temperature and a
positive humidity is excluded from the temperature average. -/
theorem dashboard_fallback_average_witness :
    avgTemperature (mkDevice 0 50 :: [mkDevice 24 60]) none
      = avgTemperature [mkDevice 24 60] none :=
  (dashboard_fallback_average [mkDevice 24 60]).2.2.2.1 (mkDevice 0 50)
    (by norm_num [mkDevice])

/-! ## Theorems: Deduplicator and Event Store (C1, C2) -/

namespace Core

/-- A known dedup key makes `admit` return `Duplicate` and leave the
whole system untouched. -/
theorem admitEvent_of_known (sys : System) (c : Candidate) (now : Int)
    (h : knownKey sys.store (canonKey c) = true) :
    admitEvent sys c now = (AdmitResult.duplicate (canonKey c), sys) := by
  simp [admitEvent, h]

/-- A fresh dedup key makes `admit` return `Accepted` and append the
canonical event to the store. -/
theorem admitEvent_of_fresh (sys : System) (c : Candidate) (now : Int)
    (h : knownKey sys.store (canonKey c) = false) :
    (admitEvent sys c now).1 = AdmitResult.accepted (canonize c now) ∧
    (admitEvent sys c now).2.store = sys.store ++ [canonize c now] := by
  simp [admitEvent, h]

/-- The canonical event carries the candidate's canonical dedup key. -/
theorem canonize_dedup_key (c : Candidate) (now : Int) :
    (canonize c now).dedup_key = canonKey c := rfl

/-- Appending one event to a store extends the dedup-index check. -/
theorem knownKey_append (st : List TelemetryEvent) (e : TelemetryEvent) (k : Key) :
    knownKey (st ++ [e]) k = (knownKey st k || (e.dedup_key == k)) := by
  simp [knownKey]

/-- Appending one event adds one to the count of its own key and leaves
other key counts unchanged. -/
theorem keyCount_append_single (st : List TelemetryEvent) (e : TelemetryEvent) (k : Key) :
    keyCount (st ++ [e]) k = keyCount st k + (if e.dedup_key = k then 1 else 0) := by
  by_cases h : e.dedup_key = k <;> simp [keyCount, List.filter_append, h]

/-- A key the dedup index does not know occurs zero times in the store. -/
theorem keyCount_eq_zero_of_not_known (st : List TelemetryEvent) (k : Key)
    (h : knownKey st k = false) : keyCount st k = 0 := by
  simp only [knownKey, List.any_eq_false, beq_iff_eq] at h
  simp only [keyCount, List.length_eq_zero, List.filter_eq_nil_iff,
    decide_eq_true_eq]
  exact h

/-- Once a key is known, a whole batch of candidates carrying that key
is reported `Duplicate` with no state change at all. -/
theorem admitSeq_all_dup :
    ∀ (cs : List Candidate) (sys : System) (now : Int) (K : Key),
      (∀ c ∈ cs, canonKey c = K) → knownKey sys.store K = true →
      admitSeq sys cs now = (cs.map (fun _ => AdmitResult.duplicate K), sys) := by
  intro cs
  induction cs with
  | nil => intro sys now K _ _; rfl
  | cons c rest ih =>
      intro sys now K hall hk
      have hck : canonKey c = K := hall c (List.mem_cons_self c rest)
      have h1 : admitEvent sys c now = (AdmitResult.duplicate K, sys) := by
        rw [← hck]
        exact admitEvent_of_known sys c now (by rw [hck]; exact hk)
      simp only [admitSeq, h1]
      rw [ih sys now K (fun c2 h2 => hall c2 (List.mem_cons_of_mem c h2)) hk]
      simp

/-- In every reachable state of the Event Store, every dedup key —
source-supplied or synthetic — occurs at most once. -/
theorem reachable_keyCount_le_one (sys : System) (h : Reachable sys) :
    ∀ k : Key, keyCount sys.store k ≤ 1 := by
  induction h with
  | empty => intro k; simp [keyCount, emptySystem]
  | @step c now s hs ih =>
      intro k
      by_cases hk : knownKey s.store (canonKey c) = true
      · rw [admitEvent_of_known s c now hk]
        exact ih k
      · have hk2 : knownKey s.store (canonKey c) = false := by
          simpa using hk
        have hfr := admitEvent_of_fresh s c now hk2
        rw [hfr.2, keyCount_append_single]
        by_cases hek : (canonize c now).dedup_key = k
        · rw [if_pos hek]
          have h0 : keyCount s.store k = 0 := by
            apply keyCount_eq_zero_of_not_known
            rw [← hek, canonize_dedup_key]
            exact hk2
          omega
        · rw [if_neg hek]
          simpa using ih k

/-- C2: in every reachable state of the Event Store, each non-empty
(source-supplied) `dedup_key` is carried by at most one stored
`TelemetryEvent`; and whenever `admit` is called with a candidate whose
`dedup_key` is already known, the call returns `Duplicate` and leaves
the Event Store and every `DeviceState` unchanged — the returned system
is the input system, so there are no further side effects. -/
theorem dedup_key_unique_and_duplicate_noop :
    (∀ sys, Reachable sys → ∀ s : String, keyCount sys.store (Key.source s) ≤ 1) ∧
    (∀ (sys : System) (c : Candidate) (now : Int) (s : String),
      c.dedup_key = some s → knownKey sys.store (Key.source s) = true →
      admitEvent sys c now = (AdmitResult.duplicate (Key.source s), sys)) := by
  constructor
  · intro sys h s
    exact reachable_keyCount_le_one sys h (Key.source s)
  · intro sys c now s hds hkn
    have hck : canonKey c = Key.source s := by simp [canonKey, hds]
    have h1 := admitEvent_of_known sys c now (by rw [hck]; exact hkn)
    rw [hck] at h1
    exact h1

/-- C2 (witness): after admitting `cand1` (key `"abc"`) into the empty
system, the key occurs at most once, and re-admitting a candidate with
key `"abc"` returns `Duplicate` and the unchanged system. -/
theorem dedup_key_unique_and_duplicate_noop_witness :
    keyCount wSys.store (Key.source "abc") ≤ 1 ∧
    admitEvent wSys cand1 5 = (AdmitResult.duplicate (Key.source "abc"), wSys) :=
  ⟨dedup_key_unique_and_duplicate_noop.1 wSys
      (Reachable.step cand1 0 Reachable.empty) "abc",
    dedup_key_unique_and_duplicate_noop.2 wSys cand1 5 "abc" rfl (by decide)⟩

/-- A batch of duplicate reports contains no acceptance. -/
theorem countP_isAccepted_map_dup (cs : List Candidate) (K : Key) :
    (cs.map (fun _ => AdmitResult.duplicate K)).countP isAccepted = 0 := by
  induction cs with
  | nil => rfl
  | cons c rest ih => simp [List.countP_cons, isAccepted, ih]

/-- A batch of duplicate reports is counted entirely as duplicates. -/
theorem countP_isDuplicate_map_dup (cs : List Candidate) (K : Key) :
    (cs.map (fun _ => AdmitResult.duplicate K)).countP isDuplicate = cs.length := by
  induction cs with
  | nil => rfl
  | cons c rest ih => simpa [List.countP_cons, isDuplicate] using ih

/-- C1: model of the concurrent-duplicates property.  Per §5 each
`admit` is an atomic, linearizable step, so every interleaving of N
concurrent deliveries is some sequential order of the N atomic steps;
the batch `cs` below ranges over *all* orders.  For any batch of N ≥ 1
candidates all carrying the same source dedup key `k`, admitted in any
order into a system that does not yet know `k`: exactly one call
returns `Accepted`, the other N − 1 return `Duplicate`, and afterwards
the Event Store contains exactly one record with key `k` — in
particular no order of the concurrent candidates produces two
`Accepted` results. -/
theorem admit_concurrent_exactly_once (sys0 : System) (cs : List Candidate)
    (k : String) (now : Int)
    (hkeys : ∀ c ∈ cs, c.dedup_key = some k)
    (hne : cs ≠ [])
    (hfresh : knownKey sys0.store (Key.source k) = false) :
    (admitSeq sys0 cs now).1.countP isAccepted = 1 ∧
    (admitSeq sys0 cs now).1.countP isDuplicate = cs.length - 1 ∧
    keyCount (admitSeq sys0 cs now).2.store (Key.source k) = 1 := by
  match cs, hne with
  | c :: rest, _ =>
    have hck : canonKey c = Key.source k := by
      simp [canonKey, hkeys c (List.mem_cons_self c rest)]
    have hkc : knownKey sys0.store (canonKey c) = false := by
      rw [hck]; exact hfresh
    have hfr := admitEvent_of_fresh sys0 c now hkc
    have hkey1 : (canonize c now).dedup_key = Key.source k := by
      rw [canonize_dedup_key, hck]
    have hknown1 : knownKey (admitEvent sys0 c now).2.store (Key.source k) = true := by
      rw [hfr.2, knownKey_append, hkey1]
      simp
    have hall : ∀ c2 ∈ rest, canonKey c2 = Key.source k := by
      intro c2 h2
      simp [canonKey, hkeys c2 (List.mem_cons_of_mem c h2)]
    have hseq := admitSeq_all_dup rest (admitEvent sys0 c now).2 now
      (Key.source k) hall hknown1
    have hcount0 : keyCount sys0.store (Key.source k) = 0 :=
      keyCount_eq_zero_of_not_known sys0.store (Key.source k) hfresh
    refine ⟨?_, ?_, ?_⟩
    · simp only [admitSeq, hseq, hfr.1, List.countP_cons,
        countP_isAccepted_map_dup, isAccepted]
      simp
    · simp only [admitSeq, hseq, hfr.1, List.countP_cons,
        countP_isDuplicate_map_dup, isDuplicate]
      simp
    · simp only [admitSeq, hseq]
      rw [hfr.2, keyCount_append_single, hcount0, if_pos hkey1]

/-- C1 (witness): three parallel gateway deliveries of the same logical
uplink (deduplication id `"abc"`, the §8 scenario) admitted into the
empty system: one `Accepted`, two `Duplicate`, one stored record. -/
theorem admit_concurrent_exactly_once_witness :
    (admitSeq emptySystem [cand1, cand2, cand3] 0).1.countP isAccepted = 1 ∧
    (admitSeq emptySystem [cand1, cand2, cand3] 0).1.countP isDuplicate
      = [cand1, cand2, cand3].length - 1 ∧
    keyCount (admitSeq emptySystem [cand1, cand2, cand3] 0).2.store
      (Key.source "abc") = 1 :=
  admit_concurrent_exactly_once emptySystem [cand1, cand2, cand3] "abc" 0
    (by intro c hc; fin_cases hc <;> rfl) (by simp) (by decide)

/-! ## Theorems: Device State Aggregator (C3, C6) -/

/-- Folding the aggregator over a batch of events drives `last_seen_at`
through the running maximum of the source timestamps. -/
theorem foldl_on_event_last_seen :
    ∀ (evs : List TelemetryEvent) (st : DeviceState),
      (evs.foldl on_event st).last_seen_at
        = (evs.map (fun e => e.occurred_at)).foldl max st.last_seen_at := by
  intro evs
  induction evs with
  | nil => intro st; rfl
  | cons e rest ih =>
      intro st
      simp only [List.foldl_cons, List.map_cons, ih]
      rfl

/-- The running maximum of a list is the seed or one of its elements. -/
theorem foldl_max_mem :
    ∀ (l : List Int) (a : Int), l.foldl max a = a ∨ l.foldl max a ∈ l := by
  intro l
  induction l with
  | nil => intro a; left; rfl
  | cons x xs ih =>
      intro a
      rw [List.foldl_cons]
      rcases ih (max a x) with h | h
      · rcases max_cases a x with ⟨he, _⟩ | ⟨he, _⟩
        · left; rw [h, he]
        · right; rw [h, he]; exact List.mem_cons_self x xs
      · right; exact List.mem_cons_of_mem x h

/-- The running maximum of a list bounds the seed and every element. -/
theorem le_foldl_max :
    ∀ (l : List Int) (a : Int),
      a ≤ l.foldl max a ∧ ∀ x ∈ l, x ≤ l.foldl max a := by
  intro l
  induction l with
  | nil => intro a; exact ⟨le_refl a, by simp⟩
  | cons y ys ih =>
      intro a
      have h1 := ih (max a y)
      refine ⟨le_trans (le_max_left a y) h1.1, ?_⟩
      intro x hx
      rcases List.mem_cons.mp hx with rfl | hx2
      · exact le_trans (le_max_right a x) h1.1
      · exact h1.2 x hx2

/-- C3: the aggregator's `on_event` sets
`last_seen_at := max(current, event.occurred_at)`; consequently, after
ingesting a sequence of events whose `occurred_at` values are strictly
increasing, the resulting `DeviceState.last_seen_at` is exactly the
maximum ingested `occurred_at` — it is one of the ingested timestamps
and bounds all of them. -/
theorem last_seen_at_eq_max_occurred (e0 : TelemetryEvent) (evs : List TelemetryEvent)
    (_hinc : List.Chain' (· < ·) ((e0 :: evs).map (fun e => e.occurred_at))) :
    (∀ (st : DeviceState) (e : TelemetryEvent),
      (on_event st e).last_seen_at = max st.last_seen_at e.occurred_at) ∧
    (evs.foldl on_event (initState e0)).last_seen_at
      ∈ (e0 :: evs).map (fun e => e.occurred_at) ∧
    ∀ t ∈ (e0 :: evs).map (fun e => e.occurred_at),
      t ≤ (evs.foldl on_event (initState e0)).last_seen_at := by
  have hfold : (evs.foldl on_event (initState e0)).last_seen_at
      = (evs.map (fun e => e.occurred_at)).foldl max e0.occurred_at := by
    rw [foldl_on_event_last_seen]
    rfl
  refine ⟨fun st e => rfl, ?_, ?_⟩
  · rw [hfold, List.map_cons]
    rcases foldl_max_mem (evs.map (fun e => e.occurred_at)) e0.occurred_at with h | h
    · rw [h]; exact List.mem_cons_self _ _
    · exact List.mem_cons_of_mem _ h
  · intro t ht
    rw [hfold]
    rw [List.map_cons] at ht
    rcases List.mem_cons.mp ht with h | h
    · rw [h]
      exact (le_foldl_max (evs.map (fun e => e.occurred_at)) e0.occurred_at).1
    · exact (le_foldl_max (evs.map (fun e => e.occurred_at)) e0.occurred_at).2 t h

/-- C3 (witness): three events for `D1` at strictly increasing times
0 < 5 < 11. -/
theorem last_seen_at_eq_max_occurred_witness :
    (∀ (st : DeviceState) (e : TelemetryEvent),
      (on_event st e).last_seen_at = max st.last_seen_at e.occurred_at) ∧
    ([mkEv 5, mkEv 11].foldl on_event (initState (mkEv 0))).last_seen_at
      ∈ (mkEv 0 :: [mkEv 5, mkEv 11]).map (fun e => e.occurred_at) ∧
    ∀ t ∈ (mkEv 0 :: [mkEv 5, mkEv 11]).map (fun e => e.occurred_at),
      t ≤ ([mkEv 5, mkEv 11].foldl on_event (initState (mkEv 0))).last_seen_at :=
  last_seen_at_eq_max_occurred (mkEv 0) [mkEv 5, mkEv 11]
    (by simp [List.chain'_cons, mkEv])

/-- C6: the status reported by `snapshot` is the value of the pure
function `liveness_check` of exactly `now`, the threshold, and the
stored `last_seen_at` — computed at read time, not stored — and it is
`online` if and only if `now - last_seen_at ≤ threshold`. -/
theorem snapshot_status_iff_threshold (sys : System) (id : String)
    (now thr : Int) (st : DeviceState) (status : Status)
    (h : snapshot sys id now thr = some (st, status)) :
    status = liveness_check now thr st.last_seen_at ∧
    (status = Status.online ↔ now - st.last_seen_at ≤ thr) := by
  simp only [snapshot, Option.map_eq_some'] at h
  obtain ⟨st0, hdev, hpair⟩ := h
  have h1 : st0 = st := congrArg Prod.fst hpair
  have h2 : liveness_check now thr st0.last_seen_at = status := congrArg Prod.snd hpair
  subst h1
  refine ⟨h2.symm, ?_⟩
  rw [← h2]
  unfold liveness_check
  by_cases hcond : now - st0.last_seen_at ≤ thr
  · simp [hcond]
  · simp [hcond]

/-- C6 (witness): device `D1` last seen at `40`, read at `now = 100`
with threshold `600`: reported online, consistent with `100 - 40 ≤ 600`. -/
theorem snapshot_status_iff_threshold_witness :
    Status.online = liveness_check 100 600 wState.last_seen_at ∧
    (Status.online = Status.online ↔ (100 : Int) - wState.last_seen_at ≤ 600) :=
  snapshot_status_iff_threshold wSys6 "D1" 100 600 wState Status.online
    (by simp [snapshot, wSys6, wState, liveness_check])

/-! ## Theorems: Analysis Dispatcher classification strategy (C9) -/

/-- Every value falls in exactly one of the three classes delimited by
ordered thresholds, so the class counts partition the series. -/
theorem countP_partition (l : List ℚ) (b a : ℚ) (hba : b ≤ a) :
    l.countP (fun v => decide (v < b)) + l.countP (fun v => decide (b ≤ v ∧ v ≤ a))
      + l.countP (fun v => decide (a < v)) = l.length := by
  induction l with
  | nil => simp
  | cons x t ih =>
      simp only [List.countP_cons, List.length_cons]
      rcases lt_or_le x b with h1 | h1
      · have h3 : ¬ a < x := not_lt.mpr (le_trans h1.le hba)
        have h2 : ¬ (b ≤ x ∧ x ≤ a) := fun hx => absurd h1 (not_lt.mpr hx.1)
        simp only [decide_eq_true_eq]
        rw [if_pos h1, if_neg h2, if_neg h3]
        omega
      · rcases lt_or_le a x with h2 | h2
        · have h3 : ¬ x < b := not_lt.mpr h1
          have h4 : ¬ (b ≤ x ∧ x ≤ a) := fun hx => absurd h2 (not_lt.mpr hx.2)
          simp only [decide_eq_true_eq]
          rw [if_neg h3, if_neg h4, if_pos h2]
          omega
        · have h3 : ¬ x < b := not_lt.mpr h1
          have h4 : ¬ a < x := not_lt.mpr h2
          simp only [decide_eq_true_eq]
          rw [if_neg h3, if_pos (And.intro h1 h2), if_neg h4]
          omega

/-- In a sorted list, the order statistic at a smaller index is no
larger. -/
theorem sorted_getD_mono (l : List ℚ) (hs : List.Sorted (· ≤ ·) l) (i j : Nat)
    (hij : i ≤ j) (hj : j < l.length) : l.getD i 0 ≤ l.getD j 0 := by
  have hi : i < l.length := lt_of_le_of_lt hij hj
  rw [List.getD_eq_getElem l 0 hi, List.getD_eq_getElem l 0 hj]
  rcases lt_or_eq_of_le hij with h | h
  · exact hs.rel_get_of_lt (Fin.mk_lt_mk.mpr h)
  · subst h
    exact le_refl _

/-- C9 (amended): on every series meeting the classification minimum
sample count, the classification strategy returns quantile thresholds
with `low ≤ high` — the 33rd and 66th percentile order statistics of a
sorted list, which coincide when the quantile values are equal (e.g. a
constant series), so the ordering is non-strict in general — and the
per-class counts of `class_distribution` sum exactly to
`total_classified`, which is the series length. -/
theorem classification_thresholds_and_distribution (series : List ℚ)
    (r : ClassificationResult) (h : classifySeries series = some r) :
    r.threshold_baixo ≤ r.threshold_alto ∧
    r.count_baixo + r.count_normal + r.count_alto = r.total_classified ∧
    r.total_classified = series.length := by
  by_cases hlen : series.length < minSamplesClassification
  · rw [classifySeries, if_pos hlen] at h
    exact absurd h (by simp)
  · rw [classifySeries, if_neg hlen] at h
    obtain rfl := Option.some.inj h
    have hn1 : 1 ≤ series.length := by
      have h10 : (10 : Nat) ≤ series.length := by
        simpa [minSamplesClassification] using le_of_not_lt hlen
      omega
    have hslen : (List.insertionSort (· ≤ ·) series).length = series.length :=
      (List.perm_insertionSort (· ≤ ·) series).length_eq
    have hj : series.length * 66 / 100 < series.length := by
      rw [Nat.div_lt_iff_lt_mul (by norm_num : 0 < 100)]
      omega
    have hij : series.length * 33 / 100 ≤ series.length * 66 / 100 :=
      Nat.div_le_div_right (by omega)
    have hba : (List.insertionSort (· ≤ ·) series).getD (series.length * 33 / 100) 0
        ≤ (List.insertionSort (· ≤ ·) series).getD (series.length * 66 / 100) 0 :=
      sorted_getD_mono (List.insertionSort (· ≤ ·) series)
        (List.sorted_insertionSort (· ≤ ·) series)
        (series.length * 33 / 100) (series.length * 66 / 100) hij (by omega)
    exact ⟨hba, countP_partition series _ _ hba, rfl⟩

/-- C9 (witness): the twelve-sample series `1, …, 12` classifies with
thresholds `4 ≤ 8` and class counts `3 + 5 + 4 = 12`. -/
theorem classification_thresholds_and_distribution_witness :
    wResult.threshold_baixo ≤ wResult.threshold_alto ∧
    wResult.count_baixo + wResult.count_normal + wResult.count_alto
      = wResult.total_classified ∧
    wResult.total_classified = wSeries.length :=
  classification_thresholds_and_distribution wSeries wResult
    (by norm_num [classifySeries, minSamplesClassification, wSeries, wResult,
      List.insertionSort, List.orderedInsert, List.getD])

/-- C9 (counterexample): the claim's strict ordering
`low < normal_boundary < high` fails on a constant series: twelve
identical samples meet the minimum sample count, yet both quantile
thresholds equal the common value, so the low threshold is not strictly
below the high one (the per-class counts still sum to the total). -/
theorem classification_equal_thresholds_cex :
    (classifySeries [5, 5, 5, 5, 5, 5, 5, 5, 5, 5, 5, 5]).map
      (fun r => decide (r.threshold_baixo < r.threshold_alto)) = some false := by
  norm_num [classifySeries, minSamplesClassification,
    List.insertionSort, List.orderedInsert, List.getD]

end Core

end TarcPortal
